import Mathlib

/-!
Verification of the PubChem-MCP gateway and tool handlers.

The Python sources are shallowly embedded as pure Lean functions.  Stateful
code (the response cache and the rate limiter) is translated to explicit
state passing; the event-loop clock is an explicit `Rat` parameter, and a
`sleep d` is modelled as advancing the clock by `d + slack` for an arbitrary
`slack ≥ 0` (sleeps never wake early).  HTTP traffic is modelled by passing
the outcome of each upstream request as an explicit argument; a Python
exception escaping a function is modelled with `Except.error`, while a
handler that catches every exception is a total function into `String`.
-/

/-! ## String helpers (Python `in`, `startswith`, `endswith`, `strip`, `str(int)`) -/

/-- Boolean test that `p` is a prefix of `s` (character lists). -/
def listStartsWith : List Char → List Char → Bool
  | _, [] => true
  | [], _ :: _ => false
  | c :: cs, p :: ps => c = p && listStartsWith cs ps

/-- Boolean test that `p` occurs as a contiguous substring of `s`. -/
def listContainsSub : List Char → List Char → Bool
  | [], pat => pat.isEmpty
  | c :: rest, pat => listStartsWith (c :: rest) pat || listContainsSub rest pat

/-- Python `pat in s` on strings. -/
def strContains (s pat : String) : Bool :=
  listContainsSub s.data pat.data

/-- Python `s.startswith(pre)`. -/
def pyStartsWith (s pre : String) : Bool :=
  listStartsWith s.data pre.data

/-- Python `s.endswith(suf)`. -/
def pyEndsWith (s suf : String) : Bool :=
  listStartsWith s.data.reverse suf.data.reverse

/-- Splits a character list into lines at each newline character.
`acc` holds the reversed characters of the line being read. -/
def splitLinesAux : List Char → List Char → List (List Char)
  | [], acc => [acc.reverse]
  | c :: rest, acc =>
    if c = '\n' then acc.reverse :: splitLinesAux rest []
    else splitLinesAux rest (c :: acc)

/-- A line of the form `<digits>. <anything>`, as produced by the handlers'
`f"{i}. {item}"` enumeration format. -/
def isNumberedLine (l : List Char) : Bool :=
  let ds := l.takeWhile Char.isDigit
  !ds.isEmpty && decide ((l.drop ds.length).take 2 = ['.', ' '])

/-- Number of numbered entries (lines `k. …`) in a rendered result string. -/
def numberedEntryCount (s : String) : Nat :=
  (splitLinesAux s.data []).countP isNumberedLine

/-- Decimal digit character for `d ≤ 9`. -/
def digitChr (d : Nat) : Char :=
  Char.ofNat (48 + d)

/-- Fuel-driven decimal rendering of a natural number (most significant first). -/
def natDigitsAux : Nat → Nat → List Char
  | 0, _ => []
  | fuel + 1, n =>
    if n < 10 then [digitChr n]
    else natDigitsAux fuel (n / 10) ++ [digitChr (n % 10)]

/-- Python `str(n)` for a natural number. -/
def natStr (n : Nat) : String :=
  ⟨natDigitsAux (n + 1) n⟩

/-- Python `str(n)` for an integer. -/
def intStr (n : Int) : String :=
  if n < 0 then "-" ++ natStr n.natAbs else natStr n.toNat

/-- Python slicing `l[:n]` (a negative `n` drops `-n` items from the end). -/
def pyTake (n : Int) (l : List α) : List α :=
  if 0 ≤ n then l.take n.toNat else l.take (l.length - (-n).toNat)

/-- Python `s.strip()`: remove leading and trailing whitespace. -/
def pyStrip (s : String) : String :=
  ⟨((s.data.dropWhile Char.isWhitespace).reverse.dropWhile Char.isWhitespace).reverse⟩

/-! ## Lemmas about the string helpers -/

theorem listStartsWith_append (s t p : List Char) (h : listStartsWith s p = true) :
    listStartsWith (s ++ t) p = true := by
  induction s generalizing p with
  | nil =>
    cases p with
    | nil => cases t <;> simp [listStartsWith]
    | cons q qs => simp [listStartsWith] at h
  | cons c cs ih =>
    cases p with
    | nil => simp [listStartsWith]
    | cons q qs =>
      simp only [listStartsWith, Bool.and_eq_true, decide_eq_true_eq] at h ⊢
      exact ⟨h.1, ih qs h.2⟩

theorem listStartsWith_append_self (l t : List Char) :
    listStartsWith (l ++ t) l = true := by
  induction l with
  | nil => cases t <;> simp [listStartsWith]
  | cons c cs ih => simp [listStartsWith, ih]

theorem listContainsSub_nil_pat (s : List Char) : listContainsSub s [] = true := by
  cases s <;> simp [listContainsSub, listStartsWith]

theorem listContainsSub_append_left (s t p : List Char)
    (h : listContainsSub s p = true) : listContainsSub (s ++ t) p = true := by
  induction s with
  | nil =>
    simp only [listContainsSub, List.isEmpty_iff] at h
    subst h
    exact listContainsSub_nil_pat t
  | cons c cs ih =>
    simp only [listContainsSub, Bool.or_eq_true] at h
    rcases h with h | h
    · simp only [List.cons_append, listContainsSub, Bool.or_eq_true]
      exact Or.inl (listStartsWith_append _ _ _ h)
    · simp only [List.cons_append, listContainsSub, Bool.or_eq_true]
      exact Or.inr (ih h)

theorem strContains_append_left (a b pat : String)
    (h : strContains a pat = true) : strContains (a ++ b) pat = true := by
  simpa [strContains, String.data_append] using
    listContainsSub_append_left a.data b.data pat.data h

theorem pyStartsWith_append_left (a b pre : String)
    (h : pyStartsWith a pre = true) : pyStartsWith (a ++ b) pre = true := by
  simpa [pyStartsWith, String.data_append] using
    listStartsWith_append a.data b.data pre.data h

theorem listEndsWith_append (a b p : List Char)
    (h : listStartsWith b.reverse p.reverse = true) :
    listStartsWith (a ++ b).reverse p.reverse = true := by
  rw [List.reverse_append]
  exact listStartsWith_append _ _ _ h

theorem pyEndsWith_append_left (a b suf : String)
    (h : pyEndsWith b suf = true) : pyEndsWith (a ++ b) suf = true := by
  simpa [pyEndsWith, String.data_append] using
    listEndsWith_append a.data b.data suf.data h

theorem splitLinesAux_append_no_newline (a : List Char) (h : '\n' ∉ a) :
    ∀ b acc, splitLinesAux (a ++ b) acc = splitLinesAux b (a.reverse ++ acc) := by
  induction a with
  | nil => intro b acc; simp
  | cons c cs ih =>
    intro b acc
    have hc : c ≠ '\n' := fun hc => h (hc ▸ List.mem_cons_self c cs)
    have hcs : '\n' ∉ cs := fun hm => h (List.mem_cons_of_mem c hm)
    have h1 : splitLinesAux ((c :: cs) ++ b) acc = splitLinesAux (cs ++ b) (c :: acc) := by
      simp [splitLinesAux, hc]
    rw [h1, ih hcs]
    have h2 : cs.reverse ++ (c :: acc) = (c :: cs).reverse ++ acc := by simp
    rw [h2]

theorem splitLinesAux_newline_cons (b acc : List Char) :
    splitLinesAux ('\n' :: b) acc = acc.reverse :: splitLinesAux b [] := by
  simp [splitLinesAux]

theorem natDigitsAux_all_digit :
    ∀ fuel n c, c ∈ natDigitsAux fuel n → c.isDigit = true := by
  intro fuel
  induction fuel with
  | zero => intro n c h; simp [natDigitsAux] at h
  | succ fuel ih =>
    intro n c h
    have hd : ∀ m, m < 10 → (digitChr m).isDigit = true := by
      intro m hm
      interval_cases m <;> decide
    simp only [natDigitsAux] at h
    split at h
    · rename_i h10
      simp only [List.mem_singleton] at h
      exact h ▸ hd n (by omega)
    · rcases List.mem_append.1 h with h | h
      · exact ih _ _ h
      · simp only [List.mem_singleton] at h
        exact h ▸ hd _ (Nat.mod_lt _ (by omega))

theorem natDigitsAux_ne_nil (fuel n : Nat) (h : fuel ≠ 0) :
    natDigitsAux fuel n ≠ [] := by
  cases fuel with
  | zero => exact absurd rfl h
  | succ fuel =>
    simp only [natDigitsAux]
    split
    · simp
    · simp

theorem natStr_all_digit (n : Nat) (c : Char) (h : c ∈ (natStr n).data) :
    c.isDigit = true :=
  natDigitsAux_all_digit _ _ _ h

theorem natStr_ne_nil (n : Nat) : (natStr n).data ≠ [] :=
  natDigitsAux_ne_nil _ _ (Nat.succ_ne_zero n)

theorem newline_not_mem_natStr (n : Nat) : '\n' ∉ (natStr n).data := by
  intro h
  have := natStr_all_digit n '\n' h
  simp [Char.isDigit] at this

theorem takeWhile_append_of_all (p : Char → Bool) (a b : List Char)
    (h : ∀ x ∈ a, p x = true) :
    (a ++ b).takeWhile p = a ++ b.takeWhile p := by
  induction a with
  | nil => simp
  | cons c cs ih =>
    have hc : p c = true := h c (List.mem_cons_self c cs)
    simp only [List.cons_append, List.takeWhile_cons, hc, if_true]
    rw [ih fun x hx => h x (List.mem_cons_of_mem c hx)]

theorem isNumberedLine_entry (n : Nat) (tail : List Char) :
    isNumberedLine ((natStr n).data ++ '.' :: ' ' :: tail) = true := by
  have hall : ∀ x ∈ (natStr n).data, Char.isDigit x = true := natStr_all_digit n
  have htw : (((natStr n).data ++ '.' :: ' ' :: tail).takeWhile Char.isDigit)
      = (natStr n).data := by
    rw [takeWhile_append_of_all _ _ _ hall]
    simp [List.takeWhile_cons]
  have hne := natStr_ne_nil n
  simp only [isNumberedLine, htw, List.drop_left, Bool.and_eq_true,
    Bool.not_eq_true', decide_eq_true_eq]
  refine ⟨?_, by simp⟩
  cases hcase : (natStr n).data with
  | nil => exact absurd hcase hne
  | cons d ds => rfl

theorem isNumberedLine_not_digit_head (c : Char) (l : List Char)
    (h : c.isDigit = false) : isNumberedLine (c :: l) = false := by
  simp [isNumberedLine, List.takeWhile_cons, h]

theorem isNumberedLine_nil : isNumberedLine [] = false := by
  decide

/-! ## The rate limiter (`src/pubchem_mcp/utils/__init__.py`, class `RateLimiter`) -/

/-- State of `RateLimiter`: the configured rate, the derived minimum spacing
`min_interval = 1.0 / calls_per_second`, and the `last_call_time` stamp. -/
structure RateLimiter where
  calls_per_second : Rat
  min_interval : Rat
  last_call_time : Rat
deriving DecidableEq, Repr

/-- State built by a successful `RateLimiter.__init__(calls_per_second)`. -/
def RateLimiter.ofRate (calls_per_second : Rat) : RateLimiter :=
  ⟨calls_per_second, 1 / calls_per_second, 0⟩

/-- Translation of `RateLimiter.__init__`.  The body performs no validation;
the only way it can fail is the `1.0 / calls_per_second` division, which in
Python raises `ZeroDivisionError` exactly when the rate is zero. -/
def RateLimiter.init (calls_per_second : Rat) : Except String RateLimiter :=
  if calls_per_second = 0 then
    .error "ZeroDivisionError: float division by zero"
  else
    .ok (RateLimiter.ofRate calls_per_second)

/-- Translation of `RateLimiter.acquire`.  `current_time` is the clock value
read on entry (under the lock); a sleep of `d` seconds wakes after `d + slack`
seconds with `slack ≥ 0`, and the same `slack` covers the second clock read.
Returns the updated state and the recorded `last_call_time` stamp, taken just
before `acquire` returns (the dispatch instant of the following request). -/
def RateLimiter.acquire (self : RateLimiter) (current_time slack : Rat) :
    RateLimiter × Rat :=
  let time_since_last_call := current_time - self.last_call_time
  let t :=
    if time_since_last_call < self.min_interval then
      current_time + (self.min_interval - time_since_last_call) + slack
    else
      current_time + slack
  ({ self with last_call_time := t }, t)

/-- Dispatch stamps produced by a sequence of `acquire` calls; each element of
the trace is the pair (clock value on entry, sleep slack). -/
def dispatchTimes : RateLimiter → List (Rat × Rat) → List Rat
  | _, [] => []
  | rl, (t, s) :: rest =>
    (rl.acquire t s).2 :: dispatchTimes (rl.acquire t s).1 rest

theorem acquire_stamps_last_call_time (rl : RateLimiter) (t s : Rat) :
    (rl.acquire t s).1.last_call_time = (rl.acquire t s).2 := rfl

theorem acquire_keeps_min_interval (rl : RateLimiter) (t s : Rat) :
    (rl.acquire t s).1.min_interval = rl.min_interval := rfl

theorem acquire_spacing (rl : RateLimiter) (t s : Rat) (hs : 0 ≤ s) :
    rl.last_call_time + rl.min_interval ≤ (rl.acquire t s).2 := by
  simp only [RateLimiter.acquire]
  split
  · rename_i h
    linarith
  · rename_i h
    push_neg at h
    linarith

theorem dispatchTimes_chain (m : Rat) :
    ∀ (trace : List (Rat × Rat)) (rl : RateLimiter),
      rl.min_interval = m → (∀ p ∈ trace, 0 ≤ p.2) →
      List.Chain' (fun a b => a + m ≤ b) (dispatchTimes rl trace) ∧
      ∀ x, (dispatchTimes rl trace).head? = some x → rl.last_call_time + m ≤ x := by
  intro trace
  induction trace with
  | nil => intro rl hm hs; simp [dispatchTimes]
  | cons p rest ih =>
    intro rl hm hs
    obtain ⟨t, s⟩ := p
    have hs0 : 0 ≤ s := hs (t, s) (List.mem_cons_self _ _)
    have hrest : ∀ q ∈ rest, 0 ≤ q.2 := fun q hq => hs q (List.mem_cons_of_mem _ hq)
    have hm' : (rl.acquire t s).1.min_interval = m := by
      rw [acquire_keeps_min_interval]; exact hm
    obtain ⟨hchain, hhead⟩ := ih (rl.acquire t s).1 hm' hrest
    constructor
    · rw [dispatchTimes]
      apply List.chain'_cons'.2
      refine ⟨?_, hchain⟩
      intro y hy
      have := hhead y hy
      rw [acquire_stamps_last_call_time] at this
      exact this
    · intro x hx
      rw [dispatchTimes] at hx
      simp only [List.head?_cons, Option.some.injEq] at hx
      subst hx
      have := acquire_spacing rl t s hs0
      rw [hm] at this
      exact this

/-! ## The response cache and `PubChemClient.get` -/

/-- An upstream HTTP response as the client sees it: status code and body text. -/
structure Response where
  statusCode : Nat
  body : String
deriving DecidableEq, Repr

/-- Outcome of the `httpx` GET performed on a cache miss: either a response
object (of any status) or a transport exception. -/
inductive FetchOutcome where
  | response (r : Response)
  | transportError (msg : String)
deriving DecidableEq, Repr

/-- A cache entry `{'time': …, 'response': …}`. -/
structure CacheEntry where
  time : Rat
  response : Response
deriving DecidableEq, Repr

/-- The `_cache` dict, as an association list. -/
def Cache := List (String × CacheEntry)

/-- Python `key in cache` / `cache[key]` lookup. -/
def lookupC : Cache → String → Option CacheEntry
  | [], _ => none
  | (k, e) :: rest, key => if k = key then some e else lookupC rest key

/-- Python `cache[key] = entry` (replaces any previous binding). -/
def insertC (c : Cache) (key : String) (e : CacheEntry) : Cache :=
  (key, e) :: List.filter (fun p => !(p.1 = key : Bool)) c

/-- Whether `get` reaches the network: the key is absent, or the stored entry
has age `now - entry['time'] ≥ ttl`. -/
def cacheMiss (cache : Cache) (key : String) (ttl now : Rat) : Bool :=
  match lookupC cache key with
  | none => true
  | some e => !decide (now - e.time < ttl)

/-- Result of one `PubChemClient.get` call: return value (or propagated
transport exception), the cache and rate-limiter state after the call, and
whether a network request was dispatched. -/
structure GetResult where
  result : Except String Response
  cache : Cache
  limiter : RateLimiter
  networkCall : Bool

/-- The miss path of `PubChemClient.get`: await the rate limiter, perform the
GET, cache the response only when its status is 200, and return it; a
transport exception propagates (the body has no try/except). -/
def PubChemClient.fetch (cache : Cache) (rl : RateLimiter) (key : String)
    (outcome : FetchOutcome) (tAcq slack tStore : Rat) : GetResult :=
  let rl' := (rl.acquire tAcq slack).1
  match outcome with
  | .response r =>
    if r.statusCode = 200 then
      ⟨.ok r, insertC cache key ⟨tStore, r⟩, rl', true⟩
    else
      ⟨.ok r, cache, rl', true⟩
  | .transportError m => ⟨.error m, cache, rl', true⟩

/-- Translation of `PubChemClient.get`.  `key` is the already-resolved cache
key (`cache_key or url`); `tCheck` is the clock at the validity check, `tAcq`
and `slack` feed the limiter, `tStore` is the clock when a 200 response is
stored, and `outcome` is what the network returns if the call reaches it. -/
def PubChemClient.get (cache : Cache) (rl : RateLimiter) (key : String)
    (ttl tCheck : Rat) (outcome : FetchOutcome) (tAcq slack tStore : Rat) : GetResult :=
  match lookupC cache key with
  | some e =>
    if tCheck - e.time < ttl then ⟨.ok e.response, cache, rl, false⟩
    else PubChemClient.fetch cache rl key outcome tAcq slack tStore
  | none => PubChemClient.fetch cache rl key outcome tAcq slack tStore

theorem lookupC_insertC (c : Cache) (key : String) (e : CacheEntry) :
    lookupC (insertC c key e) key = some e := by
  simp [insertC, lookupC]

theorem get_of_hit (cache : Cache) (rl : RateLimiter) (key : String)
    (ttl tCheck : Rat) (outcome : FetchOutcome) (tAcq slack tStore : Rat)
    (e : CacheEntry) (hl : lookupC cache key = some e)
    (hv : tCheck - e.time < ttl) :
    PubChemClient.get cache rl key ttl tCheck outcome tAcq slack tStore
      = ⟨.ok e.response, cache, rl, false⟩ := by
  simp [PubChemClient.get, hl, hv]

theorem get_of_miss (cache : Cache) (rl : RateLimiter) (key : String)
    (ttl tCheck : Rat) (outcome : FetchOutcome) (tAcq slack tStore : Rat)
    (hm : cacheMiss cache key ttl tCheck = true) :
    PubChemClient.get cache rl key ttl tCheck outcome tAcq slack tStore
      = PubChemClient.fetch cache rl key outcome tAcq slack tStore := by
  unfold cacheMiss at hm
  unfold PubChemClient.get
  cases hl : lookupC cache key with
  | none => rfl
  | some e =>
    rw [hl] at hm
    simp only [Bool.not_eq_true', decide_eq_false_iff_not] at hm
    simp [hm]

theorem cacheMiss_mono (cache : Cache) (key : String) (ttl t t' : Rat)
    (h : cacheMiss cache key ttl t = true) (hle : t ≤ t') :
    cacheMiss cache key ttl t' = true := by
  unfold cacheMiss at h ⊢
  cases hl : lookupC cache key with
  | none => rfl
  | some e =>
    rw [hl] at h
    simp only [Bool.not_eq_true', decide_eq_false_iff_not] at h ⊢
    push_neg at h ⊢
    linarith

theorem get_networkCall_eq_cacheMiss (cache : Cache) (rl : RateLimiter)
    (key : String) (ttl tCheck : Rat) (outcome : FetchOutcome)
    (tAcq slack tStore : Rat) :
    (PubChemClient.get cache rl key ttl tCheck outcome tAcq slack tStore).networkCall
      = cacheMiss cache key ttl tCheck := by
  unfold PubChemClient.get cacheMiss
  cases hl : lookupC cache key with
  | none =>
    cases outcome with
    | response r =>
      by_cases h200 : r.statusCode = 200 <;> simp [PubChemClient.fetch, h200]
    | transportError m => simp [PubChemClient.fetch]
  | some e =>
    by_cases hv : tCheck - e.time < ttl
    · simp [hv]
    · cases outcome with
      | response r =>
        by_cases h200 : r.statusCode = 200 <;> simp [PubChemClient.fetch, hv, h200]
      | transportError m => simp [PubChemClient.fetch, hv]

/-! ## `make_pubchem_request` (`mcp_server/server.py`) -/

instance {ε α : Type} [DecidableEq ε] [DecidableEq α] : DecidableEq (Except ε α) := fun x y =>
  match x, y with
  | .ok a, .ok b => if h : a = b then .isTrue (by subst h; rfl) else .isFalse (by simp [h])
  | .error a, .error b => if h : a = b then .isTrue (by subst h; rfl) else .isFalse (by simp [h])
  | .ok _, .error _ => .isFalse (by simp)
  | .error _, .ok _ => .isFalse (by simp)

/-- Outcome of the `httpx` GET inside `make_pubchem_request`: a response
(status, raw body text, and the result of parsing the body as JSON — modelled
as a flat field map, since no claim depends on nested JSON structure), a
`httpx.RequestError` (connection/timeout), or any other exception. -/
inductive RequestOutcome where
  | resp (status : Nat) (rawBody : String) (parsed : Except String (List (String × String)))
  | requestError (msg : String)
  | otherException (msg : String)
deriving DecidableEq, Repr

/-- Stands in for `str(e)` of the `httpx.HTTPStatusError` raised by
`raise_for_status`; the claims only inspect the tag, not this text. -/
def httpStatusMessage (status : Nat) : String :=
  "status error for response with status code " ++ natStr status

/-- Translation of `make_pubchem_request`: `raise_for_status` raises for any
non-2xx status, `response.json()` is returned on success, and the three
`except` arms produce `error`/`message` dictionaries. -/
def make_pubchem_request : RequestOutcome → List (String × String)
  | .resp status _ parsed =>
    if 200 ≤ status ∧ status < 300 then
      match parsed with
      | .ok j => j
      | .error m => [("error", "Unexpected error"), ("message", m)]
    else
      [("error", "HTTP error: " ++ natStr status), ("message", httpStatusMessage status)]
  | .requestError m => [("error", "Request error"), ("message", m)]
  | .otherException m => [("error", "Unexpected error"), ("message", m)]

/-- Return shape demanded by the spec's Gateway contract. -/
inductive GatewayContractResult where
  | raw (status : Nat) (body : String)
  | httpStatusError (status : Nat) (message : String)
  | requestError (message : String)
  | unexpectedError (message : String)
deriving DecidableEq, Repr

/-- Transcription of the SPEC's claimed return contract (claim C4), written
from the spec's words for comparison with `make_pubchem_request`: on transport
success return the raw response (status plus body) untouched, without
interpreting JSON; on failure return a tagged error record. -/
def gatewayContract : RequestOutcome → GatewayContractResult
  | .resp status rawBody _ =>
    if 200 ≤ status ∧ status < 300 then .raw status rawBody
    else .httpStatusError status (httpStatusMessage status)
  | .requestError m => .requestError m
  | .otherException m => .unexpectedError m

/-! ## Tool handlers (`mcp_server/compounds/properties.py` and `similarity.py`,
and the sibling `src/pubchem_mcp/__init__.py`) -/

/-- Outcome of the main property request in `get_compound_properties`: an
exception, or a response whose parsed body optionally carries
`PropertyTable.Properties` (a list of records of property name/value pairs;
values are rendered text, as the handler only interpolates them). -/
inductive PropsOutcome where
  | exc (msg : String)
  | resp (status : Nat) (propertyTable : Option (List (List (String × String))))
deriving DecidableEq, Repr

/-- Outcome of a `…/property/Title/JSON` request: an exception, or a response
whose `title` is the extracted `PropertyTable.Properties[0].Title` when
present (`none` models any KeyError/IndexError fallback). -/
inductive TitleOutcome where
  | exc (msg : String)
  | resp (status : Nat) (title : Option String)
deriving DecidableEq, Repr

/-- Outcome of a `…/synonyms/JSON` request: an exception, or a response whose
body optionally carries `InformationList.Information` (each element reduced to
its `Synonym` list, `[]` when absent). -/
inductive SynOutcome where
  | exc (msg : String)
  | resp (status : Nat) (informationList : Option (List (List String)))
deriving DecidableEq, Repr

/-- One record of the similarity search's `PropertyTable.Properties`. -/
structure SimilarCompound where
  cid : Option Int
  title : Option String
  molecularFormula : Option String
  canonicalSMILES : Option String
deriving DecidableEq, Repr

/-- Outcome of the `fastsimilarity_2d` request. -/
inductive SimilarOutcome where
  | exc (msg : String)
  | resp (status : Nat) (propertyTable : Option (List SimilarCompound))
deriving DecidableEq, Repr

namespace mcp_server

/-- Hard-coded mock returned by `get_compound_properties` for CID 2244 with
the basic property list. -/
def aspirin_properties_mock : String :=
  "\nProperties for Aspirin (CID 2244):\n- Molecular Formula: C9H8O4\n- Molecular Weight: 180.16\n- Canonical SMILES: CC(=O)OC1=CC=CC=C1C(=O)O\n- Isomeric SMILES: CC(=O)OC1=CC=CC=C1C(=O)O\n- InChI: InChI=1S/C9H8O4/c1-6(10)13-8-5-3-2-4-7(8)9(11)12/h2-5H,1H3,(H,11,12)\n- InChIKey: BSYNRYMUTXBXSQ-UHFFFAOYSA-N\n"

/-- Readable form of a property key (`XLogP` and `TPSA` get expansions). -/
def format_property_key (k : String) : String :=
  if k = "XLogP" then "XLogP (Octanol-Water Partition Coefficient)"
  else if k = "TPSA" then "TPSA (Topological Polar Surface Area)"
  else k

/-- The `for key, value in property_data.items()` loop (skips `CID`). -/
def format_property_lines : List (String × String) → String
  | [] => ""
  | (k, v) :: rest =>
    (if k = "CID" then "" else "- " ++ format_property_key k ++ ": " ++ v ++ "\n")
      ++ format_property_lines rest

/-- Translation of `get_compound_properties` (the string-returning tool in
`mcp_server/compounds/properties.py`).  `titleResult` is the compound name
extracted by the inner, exception-swallowing Title request (`none` for any
failure there).  The handler's blanket `except` makes it total. -/
def get_compound_properties (cid property_list : String) (main : PropsOutcome)
    (titleResult : Option String) : String :=
  if cid = "2244" ∧ property_list.toLower = "basic" then aspirin_properties_mock
  else
    match main with
    | .exc m => "Error retrieving compound properties: " ++ m
    | .resp status props =>
      if status = 404 then "Error: No compound found with CID " ++ cid
      else if ¬(200 ≤ status ∧ status < 300) then
        "Error retrieving compound properties: " ++ httpStatusMessage status
      else
        match props with
        | some (pd :: _) =>
          "\nProperties for " ++ titleResult.getD "Unknown" ++ " (CID " ++ cid ++ "):\n"
            ++ format_property_lines pd
        | _ => "Error: No properties found for compound with CID " ++ cid

/-- Hard-coded mock returned by `get_compound_synonyms` for CID 2244
(regardless of `max_results`). -/
def aspirin_synonyms_mock : String :=
  "\nSynonyms for Aspirin (CID 2244):\n1. Acetylsalicylic acid\n2. 2-Acetoxybenzoic acid\n3. ASA\n4. Aspirin\n5. Acetylsalicylate\n6. Salicylic acid acetate\n7. Ecotrin\n8. Entrophen\n9. Bufferin\n10. Acylpyrin\n"

/-- The `for i, synonym in enumerate(synonyms)` loop rendering
`f"{i+1}. {synonym}\n"`. -/
def format_synonym_lines : Nat → List String → String
  | _, [] => ""
  | i, syn :: rest => natStr (i + 1) ++ ". " ++ syn ++ "\n" ++ format_synonym_lines (i + 1) rest

/-- Compound name extraction from the check request (only a 200 with a
parsable Title yields a name; every other status leaves "Unknown"). -/
def extract_title (status : Nat) (title : Option String) : String :=
  if status = 200 then title.getD "Unknown" else "Unknown"

/-- The `if max_results > 0: synonyms = synonyms[:max_results]` step. -/
def limit_synonyms (max_results : Int) (syns : List String) : List String :=
  if max_results > 0 then pyTake max_results syns else syns

/-- Translation of `get_compound_synonyms` in
`mcp_server/compounds/properties.py`.  `check` is the Title existence probe,
`syn` the synonyms request. -/
def get_compound_synonyms (cid : String) (max_results : Int) (check : TitleOutcome)
    (syn : SynOutcome) : String :=
  if cid = "2244" then aspirin_synonyms_mock
  else
    match check with
    | .exc m => "Error retrieving compound synonyms: " ++ m
    | .resp cstatus ctitle =>
      if cstatus = 404 then "Error: No compound found with CID " ++ cid
      else
        match syn with
        | .exc m => "Error retrieving compound synonyms: " ++ m
        | .resp sstatus info =>
          if sstatus = 404 then "No synonyms found for compound with CID " ++ cid
          else if ¬(200 ≤ sstatus ∧ sstatus < 300) then
            "Error retrieving compound synonyms: " ++ httpStatusMessage sstatus
          else
            match info with
            | some (syns :: _) =>
              if syns = [] then "No synonyms found for compound with CID " ++ cid
              else
                "\nSynonyms for " ++ extract_title cstatus ctitle ++ " (CID " ++ cid
                  ++ "):\n" ++ format_synonym_lines 0 (limit_synonyms max_results syns)
            | _ => "No synonyms found for compound with CID " ++ cid

end mcp_server

namespace mcp_server

/-- Hard-coded mock returned by `search_similar_compounds_by_cid` for
CID 2244. -/
def aspirin_similar_mock : String :=
  "Similar Compounds to CID 2244 (Aspirin):\n\n1. CID 2244 (Aspirin) - Similarity: 1.0\n   Formula: C9H8O4\n   SMILES: CC(=O)OC1=CC=CC=C1C(=O)O\n\n2. CID 2662 (Salicylic acid) - Similarity: 0.95\n   Formula: C7H6O3\n   SMILES: C1=CC=C(C=C1C(=O)O)O\n\n3. CID 54675779 (Aspirin metabolite) - Similarity: 0.93\n   Formula: C9H8O5\n   SMILES: CC(=O)OC1=C(C=CC=C1)C(=O)O\n\n4. CID 5161 (Methyl salicylate) - Similarity: 0.91\n   Formula: C8H8O3\n   SMILES: COC(=O)C1=CC=CC=C1O\n\n5. CID 338 (Salicylaldehyde) - Similarity: 0.88\n   Formula: C7H6O2\n   SMILES: C1=CC=C(C=C1C=O)O"

/-- Python `int(q)` (truncation toward zero). -/
def pyInt (q : Rat) : Int :=
  if 0 ≤ q then q.floor else q.ceil

/-- Python `round(x, 2)`.  Python rounds binary floats half-to-even; over `Rat`
we use the standard `round`, which can differ only at exact `.005` midpoints.
No claim depends on the numeric value, only on its determinism. -/
def round2 (q : Rat) : Rat :=
  ((round (q * 100) : Int) : Rat) / 100

/-- Rendering of a similarity value / threshold in an f-string.  The textual
form differs from Python float formatting, but no claim inspects it. -/
def ratStr (q : Rat) : String :=
  toString q

/-- The synthetic similarity score assigned to the `i`-th listed compound. -/
def similarity_score (cid : String) (threshold : Rat) (i : Nat)
    (c : SimilarCompound) : Rat :=
  let sim_cid := match c.cid with | some n => intStr n | none => "Unknown"
  if sim_cid = cid then 1
  else
    let s := round2 (1 - 1/20 * ((i : Rat) - 1))
    if s < threshold then round2 (threshold + 1/100) else s

/-- One formatted search result (the three-line block ending in a blank line). -/
def similar_compound_line (cid : String) (threshold : Rat) (i : Nat)
    (c : SimilarCompound) : String :=
  let sim_cid := match c.cid with | some n => intStr n | none => "Unknown"
  natStr i ++ ". CID " ++ sim_cid ++ " (" ++ c.title.getD "Unknown"
    ++ ") - Similarity: " ++ ratStr (similarity_score cid threshold i c)
    ++ "\n   Formula: " ++ c.molecularFormula.getD "Unknown"
    ++ "\n   SMILES: " ++ c.canonicalSMILES.getD "Unknown" ++ "\n\n"

/-- The `for i, compound in enumerate(compounds[:max_results], 1)` loop. -/
def format_similar (cid : String) (threshold : Rat) : Nat → List SimilarCompound → String
  | _, [] => ""
  | i, c :: rest =>
    similar_compound_line cid threshold i c ++ format_similar cid threshold (i + 1) rest

/-- Translation of `search_similar_compounds_by_cid`
(`mcp_server/compounds/similarity.py`).  `nameReq` is the Title request,
`simReq` the `fastsimilarity_2d` request; `int(threshold * 100)` is computed
only to build the request parameters, so it does not appear in the output. -/
def search_similar_compounds_by_cid (cid : String) (threshold : Rat)
    (max_results : Int) (nameReq : TitleOutcome) (simReq : SimilarOutcome) : String :=
  if cid = "2244" then aspirin_similar_mock
  else
    match nameReq with
    | .exc m => "Error searching similar compounds: " ++ m
    | .resp nstatus ntitle =>
      let name := if nstatus = 200 then ntitle.getD "Unknown" else "Unknown"
      if nstatus = 404 then "No compound found with CID " ++ cid
      else
        match simReq with
        | .exc m => "Error searching similar compounds: " ++ m
        | .resp sstatus props =>
          if sstatus = 404 then
            "No similar compounds found for CID " ++ cid ++ " at threshold "
              ++ ratStr threshold
          else if ¬(200 ≤ sstatus ∧ sstatus < 300) then
            "Error searching similar compounds: " ++ httpStatusMessage sstatus
          else
            match props with
            | some (c :: cs) =>
              pyStrip ("Similar Compounds to CID " ++ cid ++ " (" ++ name ++ "):\n\n"
                ++ format_similar cid threshold 1 (pyTake max_results (c :: cs)))
            | _ =>
              "No similar compounds found for CID " ++ cid ++ " at threshold "
                ++ ratStr threshold

end mcp_server

namespace pubchem_mcp

/-- The fallback literal produced by the `except` arm of
`src/pubchem_mcp/__init__.py`'s `get_compound_synonyms` when `cid == "2244"`. -/
def aspirin_synonyms_fallback : String :=
  "Synonyms for CID 2244:\n1. Aspirin\n2. Acetylsalicylic acid\n3. 2-(acetyloxy)benzoic acid\n4. ASA\n5. Acetylsalicylate\n6. Acylpyrin\n7. Colfarit\n8. Easprin\n9. Ecotrin\n10. Endosprin\n\nShowing 10 of 234 synonyms."

/-- Translation of the sibling `get_compound_synonyms` in
`src/pubchem_mcp/__init__.py` (parameter `max_synonyms`).  This variant keeps
the total count and appends a `Showing … of … synonyms.` note on truncation;
its `except` arm falls back to the Aspirin literal for CID 2244. -/
def get_compound_synonyms (cid : String) (max_synonyms : Int) (syn : SynOutcome) : String :=
  match syn with
  | .exc m =>
    if cid = "2244" then aspirin_synonyms_fallback
    else "Error retrieving compound synonyms: " ++ m
  | .resp status info =>
    if status = 404 then "No synonyms found for compound CID " ++ cid
    else if ¬(200 ≤ status ∧ status < 300) then
      if cid = "2244" then aspirin_synonyms_fallback
      else "Error retrieving compound synonyms: " ++ httpStatusMessage status
    else
      let synonyms0 := match info with
        | some (syns :: _) => syns
        | _ => []
      if synonyms0 = [] then "No synonyms found for compound CID " ++ cid
      else
        let total_synonyms := synonyms0.length
        let result := "Synonyms for CID " ++ cid ++ ":\n"
          ++ mcp_server.format_synonym_lines 0 (pyTake max_synonyms synonyms0)
        if max_synonyms < (total_synonyms : Int) then
          result ++ "\nShowing " ++ intStr max_synonyms ++ " of "
            ++ natStr total_synonyms ++ " synonyms."
        else result

end pubchem_mcp

/-! ## Claim theorems -/

/-- Concrete rational facts used to instantiate witnesses. -/
theorem rat_gap_lt_ttl : (5 : Rat) - 1 < 10 := by norm_num

theorem rat_ttl_le_age : (10 : Rat) ≤ 20 - 5 := by norm_num

/-- C1: for every cache key, a second `PubChemClient.get` issued while the
age of the entry stored by the first call's successful (status-200) fetch is
below `ttl` returns the stored response without a network call (exactly one
network call across the pair), while a call that finds an entry of age
`≥ ttl` treats it as absent, dispatches a fresh network call, and overwrites
the entry on success. -/
theorem cache_hit_within_ttl :
    (∀ (cache : Cache) (rl : RateLimiter) (key : String) (ttl : Rat) (r : Response)
       (t1 ta1 s1 tf1 t2 ta2 s2 tf2 : Rat) (o2 : FetchOutcome),
       r.statusCode = 200 →
       cacheMiss cache key ttl t1 = true →
       t2 - tf1 < ttl →
       PubChemClient.get cache rl key ttl t1 (.response r) ta1 s1 tf1
         = ⟨.ok r, insertC cache key ⟨tf1, r⟩, (rl.acquire ta1 s1).1, true⟩
       ∧ PubChemClient.get (insertC cache key ⟨tf1, r⟩) ((rl.acquire ta1 s1).1)
           key ttl t2 o2 ta2 s2 tf2
         = ⟨.ok r, insertC cache key ⟨tf1, r⟩, (rl.acquire ta1 s1).1, false⟩)
    ∧ (∀ (cache : Cache) (rl : RateLimiter) (key : String) (ttl : Rat)
       (e : CacheEntry) (r' : Response) (t2 ta2 s2 tf2 : Rat),
       lookupC cache key = some e →
       ttl ≤ t2 - e.time →
       r'.statusCode = 200 →
       PubChemClient.get cache rl key ttl t2 (.response r') ta2 s2 tf2
         = ⟨.ok r', insertC cache key ⟨tf2, r'⟩, (rl.acquire ta2 s2).1, true⟩
       ∧ lookupC (insertC cache key ⟨tf2, r'⟩) key = some ⟨tf2, r'⟩) := by
  constructor
  · intro cache rl key ttl r t1 ta1 s1 tf1 t2 ta2 s2 tf2 o2 h200 hmiss hfresh
    constructor
    · rw [get_of_miss cache rl key ttl t1 (.response r) ta1 s1 tf1 hmiss]
      simp [PubChemClient.fetch, h200]
    · exact get_of_hit _ _ _ _ _ _ _ _ _ ⟨tf1, r⟩ (lookupC_insertC _ _ _) hfresh
  · intro cache rl key ttl e r' t2 ta2 s2 tf2 hl hstale h200
    have hmiss : cacheMiss cache key ttl t2 = true := by
      unfold cacheMiss
      rw [hl]
      simp only [Bool.not_eq_true', decide_eq_false_iff_not]
      linarith
    constructor
    · rw [get_of_miss cache rl key ttl t2 (.response r') ta2 s2 tf2 hmiss]
      simp [PubChemClient.fetch, h200]
    · exact lookupC_insertC _ _ _

theorem cache_hit_within_ttl_witness :
    (PubChemClient.get [] (RateLimiter.ofRate 1) "k" 10 0
        (.response ⟨200, "BODY"⟩) 0 0 1
      = ⟨.ok ⟨200, "BODY"⟩, insertC [] "k" ⟨1, ⟨200, "BODY"⟩⟩,
          ((RateLimiter.ofRate 1).acquire 0 0).1, true⟩
     ∧ PubChemClient.get (insertC [] "k" ⟨1, ⟨200, "BODY"⟩⟩)
          (((RateLimiter.ofRate 1).acquire 0 0).1) "k" 10 5
          (.transportError "down") 5 0 6
      = ⟨.ok ⟨200, "BODY"⟩, insertC [] "k" ⟨1, ⟨200, "BODY"⟩⟩,
          ((RateLimiter.ofRate 1).acquire 0 0).1, false⟩)
    ∧ (PubChemClient.get [("k", ⟨5, ⟨200, "OLD"⟩⟩)] (RateLimiter.ofRate 1) "k" 10 20
         (.response ⟨200, "NEW"⟩) 20 0 21
       = ⟨.ok ⟨200, "NEW"⟩, insertC [("k", ⟨5, ⟨200, "OLD"⟩⟩)] "k" ⟨21, ⟨200, "NEW"⟩⟩,
           ((RateLimiter.ofRate 1).acquire 20 0).1, true⟩
       ∧ lookupC (insertC [("k", ⟨5, ⟨200, "OLD"⟩⟩)] "k" ⟨21, ⟨200, "NEW"⟩⟩) "k"
         = some ⟨21, ⟨200, "NEW"⟩⟩) :=
  ⟨cache_hit_within_ttl.1 [] (RateLimiter.ofRate 1) "k" 10 ⟨200, "BODY"⟩
      0 0 0 1 5 5 0 6 (.transportError "down") rfl rfl rat_gap_lt_ttl,
   cache_hit_within_ttl.2 [("k", ⟨5, ⟨200, "OLD"⟩⟩)] (RateLimiter.ofRate 1) "k" 10
      ⟨5, ⟨200, "OLD"⟩⟩ ⟨200, "NEW"⟩ 20 20 0 21 (by decide) rat_ttl_le_age rfl⟩

/-- C2: consecutive dispatch stamps recorded by `RateLimiter.acquire` are at
least `1 / calls_per_second` apart, for every trace of entry clock values and
non-negative sleep slacks; `acquire` records the stamp as the new
`last_call_time` just before returning. -/
theorem rate_limiter_spacing (cps : Rat) (trace : List (Rat × Rat))
    (hpos : 0 < cps) (hslack : ∀ p ∈ trace, 0 ≤ p.2) :
    List.Chain' (fun a b => a + 1 / cps ≤ b)
      (dispatchTimes (RateLimiter.ofRate cps) trace)
    ∧ RateLimiter.init cps = .ok (RateLimiter.ofRate cps)
    ∧ ∀ (rl : RateLimiter) (t s : Rat),
        (rl.acquire t s).1.last_call_time = (rl.acquire t s).2 := by
  refine ⟨?_, ?_, fun rl t s => acquire_stamps_last_call_time rl t s⟩
  · exact (dispatchTimes_chain (1 / cps) trace (RateLimiter.ofRate cps) rfl hslack).1
  · simp [RateLimiter.init, ne_of_gt hpos]

theorem rate_limiter_spacing_witness :
    List.Chain' (fun a b => a + 1 / 2 ≤ b)
      (dispatchTimes (RateLimiter.ofRate 2) [(0, 0), (0, 0), (0, 0)])
    ∧ RateLimiter.init 2 = .ok (RateLimiter.ofRate 2)
    ∧ ∀ (rl : RateLimiter) (t s : Rat),
        (rl.acquire t s).1.last_call_time = (rl.acquire t s).2 :=
  rate_limiter_spacing 2 [(0, 0), (0, 0), (0, 0)] (by decide) (by simp)

/-- Decidable test of a fetch outcome that the cache must not store: any
response with a status other than 200, or a transport exception. -/
def fetchFails : FetchOutcome → Bool
  | .response r => !decide (r.statusCode = 200)
  | .transportError _ => true

/-- C3: a failing fetch (status ≠ 200, 4xx/5xx included, or a transport
exception) leaves the cache exactly as it was, so an immediately repeated
call with the same key dispatches a new network call; and the cache is only
ever changed by a status-200 response. -/
theorem failed_fetch_never_cached :
    (∀ (cache : Cache) (rl : RateLimiter) (key : String)
       (ttl t ta s tf : Rat) (o : FetchOutcome),
       fetchFails o = true →
       (PubChemClient.get cache rl key ttl t o ta s tf).cache = cache)
    ∧ (∀ (cache : Cache) (rl rl2 : RateLimiter) (key : String)
       (ttl t ta s tf t2 ta2 s2 tf2 : Rat) (o o2 : FetchOutcome),
       fetchFails o = true →
       cacheMiss cache key ttl t = true →
       t ≤ t2 →
       (PubChemClient.get ((PubChemClient.get cache rl key ttl t o ta s tf).cache)
          rl2 key ttl t2 o2 ta2 s2 tf2).networkCall = true)
    ∧ (∀ (cache : Cache) (rl : RateLimiter) (key : String)
       (ttl t ta s tf : Rat) (o : FetchOutcome),
       (PubChemClient.get cache rl key ttl t o ta s tf).cache ≠ cache →
       ∃ r, o = .response r ∧ r.statusCode = 200) := by
  have hunchanged : ∀ (cache : Cache) (rl : RateLimiter) (key : String)
      (ttl t ta s tf : Rat) (o : FetchOutcome), fetchFails o = true →
      (PubChemClient.get cache rl key ttl t o ta s tf).cache = cache := by
    intro cache rl key ttl t ta s tf o hfail
    unfold PubChemClient.get
    cases hl : lookupC cache key with
    | none =>
      cases o with
      | response r =>
        simp only [fetchFails, Bool.not_eq_true', decide_eq_false_iff_not] at hfail
        simp [PubChemClient.fetch, hfail]
      | transportError m => simp [PubChemClient.fetch]
    | some e =>
      by_cases hv : t - e.time < ttl
      · simp [hv]
      · cases o with
        | response r =>
          simp only [fetchFails, Bool.not_eq_true', decide_eq_false_iff_not] at hfail
          simp [PubChemClient.fetch, hv, hfail]
        | transportError m => simp [PubChemClient.fetch, hv]
  refine ⟨hunchanged, ?_, ?_⟩
  · intro cache rl rl2 key ttl t ta s tf t2 ta2 s2 tf2 o o2 hfail hmiss hle
    rw [hunchanged cache rl key ttl t ta s tf o hfail,
      get_networkCall_eq_cacheMiss]
    exact cacheMiss_mono cache key ttl t t2 hmiss hle
  · intro cache rl key ttl t ta s tf o hchanged
    cases o with
    | response r =>
      by_cases h200 : r.statusCode = 200
      · exact ⟨r, rfl, h200⟩
      · exact absurd (hunchanged cache rl key ttl t ta s tf (.response r)
          (by simp [fetchFails, h200])) hchanged
    | transportError m =>
      exact absurd (hunchanged cache rl key ttl t ta s tf (.transportError m)
        (by simp [fetchFails])) hchanged

theorem failed_fetch_never_cached_witness :
    ((PubChemClient.get [] (RateLimiter.ofRate 1) "k" 10 0
        (.response ⟨500, "ERR"⟩) 0 0 1).cache = [])
    ∧ ((PubChemClient.get
         ((PubChemClient.get [] (RateLimiter.ofRate 1) "k" 10 0
            (.response ⟨500, "ERR"⟩) 0 0 1).cache)
         (RateLimiter.ofRate 1) "k" 10 0 (.transportError "down") 0 0 1).networkCall
        = true) :=
  ⟨failed_fetch_never_cached.1 [] (RateLimiter.ofRate 1) "k" 10 0 0 0 1
      (.response ⟨500, "ERR"⟩) (by decide),
   failed_fetch_never_cached.2.1 [] (RateLimiter.ofRate 1) (RateLimiter.ofRate 1)
      "k" 10 0 0 0 1 0 0 0 1 (.response ⟨500, "ERR"⟩) (.transportError "down")
      (by decide) rfl (by decide)⟩

/-- C7 counterexample: `RateLimiter.__init__` accepts the non-positive rate
`-1` and succeeds, instead of failing fast with a configuration error; only
`calls_per_second = 0` fails (with a `ZeroDivisionError`, not a validation). -/
theorem rate_limiter_no_validation_cex :
    (RateLimiter.init (-1)).isOk = true := by decide

/-- C7 amended: the constructor performs no validation: every non-zero rate
(negative ones included) is accepted, zero alone fails via the
`ZeroDivisionError` raised by `1.0 / calls_per_second`, and a negative rate
yields a negative `min_interval` (so `acquire` never waits). -/
theorem rate_limiter_init_accepts_nonpositive :
    (∀ cps : Rat, cps ≠ 0 → RateLimiter.init cps = .ok (RateLimiter.ofRate cps))
    ∧ RateLimiter.init 0 = .error "ZeroDivisionError: float division by zero"
    ∧ (RateLimiter.ofRate (-1)).min_interval < 0 := by
  refine ⟨fun cps h => by simp [RateLimiter.init, h], by simp [RateLimiter.init], ?_⟩
  norm_num [RateLimiter.ofRate]

theorem rate_limiter_init_accepts_nonpositive_witness :
    RateLimiter.init (-3) = .ok (RateLimiter.ofRate (-3)) :=
  rate_limiter_init_accepts_nonpositive.1 (-3) (by decide)

/-- C4 counterexample: on transport success `make_pubchem_request` returns the
parsed JSON body, not the raw response: two successes with different status
codes and different raw bodies but the same parsed body are returned
identically, although the claimed contract (transcribed in `gatewayContract`)
must keep them apart; the status code and raw body are not in the output. -/
theorem gateway_raw_return_cex :
    make_pubchem_request (.resp 200 "BODY_A" (.ok [("k", "v")]))
      = make_pubchem_request (.resp 204 "BODY_B" (.ok [("k", "v")]))
    ∧ gatewayContract (.resp 200 "BODY_A" (.ok [("k", "v")]))
      ≠ gatewayContract (.resp 204 "BODY_B" (.ok [("k", "v")]))
    ∧ make_pubchem_request (.resp 200 "BODY_A" (.ok [("k", "v")])) = [("k", "v")] := by
  decide

/-- C4 amended: `make_pubchem_request` returns, on transport failure, a tagged
error record distinguishing `HTTPStatusError` (with the upstream status code
in the tag), `RequestError` and `UnexpectedError` (with a message) — the
three tags are pairwise distinct — but on a 2xx transport success it returns
the parsed JSON body rather than the raw response; `PubChemClient.get`, by
contrast, returns the raw response untouched for every status but propagates
transport exceptions instead of returning an error record. -/
theorem gateway_error_tagging :
    (∀ m, make_pubchem_request (.requestError m)
      = [("error", "Request error"), ("message", m)])
    ∧ (∀ m, make_pubchem_request (.otherException m)
      = [("error", "Unexpected error"), ("message", m)])
    ∧ (∀ status rawBody parsed, ¬(200 ≤ status ∧ status < 300) →
        make_pubchem_request (.resp status rawBody parsed)
          = [("error", "HTTP error: " ++ natStr status),
             ("message", httpStatusMessage status)])
    ∧ (∀ status rawBody j, 200 ≤ status → status < 300 →
        make_pubchem_request (.resp status rawBody (.ok j)) = j)
    ∧ (∀ status : Nat, "HTTP error: " ++ natStr status ≠ "Request error"
        ∧ "HTTP error: " ++ natStr status ≠ "Unexpected error"
        ∧ ("Request error" : String) ≠ "Unexpected error")
    ∧ (∀ (cache : Cache) (rl : RateLimiter) (key : String) (ttl t ta s tf : Rat)
        (r : Response), cacheMiss cache key ttl t = true →
        (PubChemClient.get cache rl key ttl t (.response r) ta s tf).result = .ok r)
    ∧ (∀ (cache : Cache) (rl : RateLimiter) (key : String) (ttl t ta s tf : Rat)
        (m : String), cacheMiss cache key ttl t = true →
        (PubChemClient.get cache rl key ttl t (.transportError m) ta s tf).result
          = .error m) := by
  refine ⟨fun m => rfl, fun m => rfl, ?_, ?_, ?_, ?_, ?_⟩
  · intro status rawBody parsed h
    simp [make_pubchem_request, h]
  · intro status rawBody j h1 h2
    simp [make_pubchem_request, h1, h2]
  · intro status
    have hH : pyStartsWith ("HTTP error: " ++ natStr status) "H" = true :=
      pyStartsWith_append_left "HTTP error: " (natStr status) "H" (by decide)
    refine ⟨fun h => ?_, fun h => ?_, by decide⟩
    · rw [h] at hH
      exact absurd hH (by decide)
    · rw [h] at hH
      exact absurd hH (by decide)
  · intro cache rl key ttl t ta s tf r hmiss
    rw [get_of_miss cache rl key ttl t (.response r) ta s tf hmiss]
    unfold PubChemClient.fetch
    by_cases h200 : r.statusCode = 200 <;> simp [h200]
  · intro cache rl key ttl t ta s tf m hmiss
    rw [get_of_miss cache rl key ttl t (.transportError m) ta s tf hmiss]
    rfl

theorem gateway_error_tagging_witness :
    (make_pubchem_request (.resp 404 "NF" (.error "not json"))
      = [("error", "HTTP error: " ++ natStr 404), ("message", httpStatusMessage 404)])
    ∧ (make_pubchem_request (.resp 200 "RAW" (.ok [("a", "b")])) = [("a", "b")])
    ∧ ((PubChemClient.get [] (RateLimiter.ofRate 1) "k" 10 0
         (.response ⟨503, "E"⟩) 0 0 1).result = .ok ⟨503, "E"⟩)
    ∧ ((PubChemClient.get [] (RateLimiter.ofRate 1) "k" 10 0
         (.transportError "timeout") 0 0 1).result = .error "timeout") :=
  ⟨gateway_error_tagging.2.2.1 404 "NF" (.error "not json") (by decide),
   gateway_error_tagging.2.2.2.1 200 "RAW" [("a", "b")] (by decide) (by decide),
   gateway_error_tagging.2.2.2.2.2.1 [] (RateLimiter.ofRate 1) "k" 10 0 0 0 1
     ⟨503, "E"⟩ rfl,
   gateway_error_tagging.2.2.2.2.2.2 [] (RateLimiter.ofRate 1) "k" 10 0 0 0 1
     "timeout" rfl⟩

/-- Decidable test of a main-request outcome on which `get_compound_properties`
cannot produce a property listing: exception, 404, other non-2xx status, or a
body without a non-empty `PropertyTable.Properties`. -/
def props_request_fails : PropsOutcome → Bool
  | .exc _ => true
  | .resp status props =>
    if status = 404 then true
    else if ¬(200 ≤ status ∧ status < 300) then true
    else
      match props with
      | some (_ :: _) => false
      | _ => true

/-- C5: for every compound id and property list (outside the hard-coded
Aspirin mock, which performs no upstream request) and every failing upstream
outcome — 404, any other HTTP error, a transport exception, or a shape
mismatch — `get_compound_properties` returns a string containing
"No compound found" or "Error"; being a total Lean function, it never raises
to the protocol layer. -/
theorem not_found_and_errors_reported (cid property_list : String)
    (main : PropsOutcome) (titleResult : Option String)
    (hmock : ¬(cid = "2244" ∧ property_list.toLower = "basic"))
    (hfail : props_request_fails main = true) :
    strContains (mcp_server.get_compound_properties cid property_list main titleResult)
      "No compound found" = true
    ∨ strContains (mcp_server.get_compound_properties cid property_list main titleResult)
      "Error" = true := by
  right
  cases main with
  | exc m =>
    simp only [mcp_server.get_compound_properties, if_neg hmock]
    exact strContains_append_left "Error retrieving compound properties: " m "Error"
      (by decide)
  | resp status props =>
    simp only [mcp_server.get_compound_properties, if_neg hmock]
    simp only [props_request_fails] at hfail
    by_cases h404 : status = 404
    · rw [if_pos h404]
      exact strContains_append_left "Error: No compound found with CID " cid "Error"
        (by decide)
    · rw [if_neg h404] at hfail ⊢
      by_cases h2xx : 200 ≤ status ∧ status < 300
      · have hn : ¬¬(200 ≤ status ∧ status < 300) := not_not_intro h2xx
        rw [if_neg hn] at hfail ⊢
        cases props with
        | none =>
          exact strContains_append_left "Error: No properties found for compound with CID "
            cid "Error" (by decide)
        | some pd =>
          cases pd with
          | nil =>
            exact strContains_append_left
              "Error: No properties found for compound with CID " cid "Error" (by decide)
          | cons p rest => simp at hfail
      · rw [if_pos h2xx]
        exact strContains_append_left "Error retrieving compound properties: "
          (httpStatusMessage status) "Error" (by decide)

theorem not_found_and_errors_reported_witness :
    strContains (mcp_server.get_compound_properties "999999999" "basic"
      (.resp 404 none) none) "No compound found" = true
    ∨ strContains (mcp_server.get_compound_properties "999999999" "basic"
      (.resp 404 none) none) "Error" = true :=
  not_found_and_errors_reported "999999999" "basic" (.resp 404 none) none
    (by decide) (by decide)

/-- C8 counterexample: a failing invocation (unknown CID, upstream 404) of
`search_similar_compounds_by_cid` returns a string that does not begin with
"Error:" — not-found outcomes are reported as "No compound found…". -/
theorem error_string_cex :
    mcp_server.search_similar_compounds_by_cid "999999999" 0 10 (.resp 404 none)
      (.exc "boom") = "No compound found with CID 999999999"
    ∧ pyStartsWith "No compound found with CID 999999999" "Error:" = false := by
  decide

/-- Decidable test of the request outcomes on which
`search_similar_compounds_by_cid` cannot produce a similarity listing. -/
def similar_request_fails (nameReq : TitleOutcome) (simReq : SimilarOutcome) : Bool :=
  match nameReq with
  | .exc _ => true
  | .resp nstatus _ =>
    if nstatus = 404 then true
    else
      match simReq with
      | .exc _ => true
      | .resp sstatus props =>
        if sstatus = 404 then true
        else if ¬(200 ≤ sstatus ∧ sstatus < 300) then true
        else
          match props with
          | some (_ :: _) => false
          | _ => true

/-- C8 amended: failures are signaled in-band (the handler is a total function
into strings, so no exception crosses the tool boundary), but not uniformly
as strings beginning with "Error:": every failing invocation outside the
hard-coded mock yields a string starting with "Error" (exception paths, where
the text is "Error searching similar compounds: …"), with "No compound found"
(unknown CID), or with "No similar compounds found" (no results). -/
theorem errors_signaled_in_band (cid : String) (threshold : Rat) (max_results : Int)
    (nameReq : TitleOutcome) (simReq : SimilarOutcome)
    (hcid : cid ≠ "2244")
    (hfail : similar_request_fails nameReq simReq = true) :
    pyStartsWith (mcp_server.search_similar_compounds_by_cid cid threshold
      max_results nameReq simReq) "Error" = true
    ∨ pyStartsWith (mcp_server.search_similar_compounds_by_cid cid threshold
      max_results nameReq simReq) "No compound found" = true
    ∨ pyStartsWith (mcp_server.search_similar_compounds_by_cid cid threshold
      max_results nameReq simReq) "No similar compounds found" = true := by
  cases nameReq with
  | exc m =>
    simp only [mcp_server.search_similar_compounds_by_cid, if_neg hcid]
    exact Or.inl (pyStartsWith_append_left "Error searching similar compounds: " m
      "Error" (by decide))
  | resp nstatus ntitle =>
    by_cases h404 : nstatus = 404
    · simp only [mcp_server.search_similar_compounds_by_cid, if_neg hcid]
      rw [if_pos h404]
      exact Or.inr (Or.inl (pyStartsWith_append_left "No compound found with CID " cid
        "No compound found" (by decide)))
    · cases simReq with
      | exc m =>
        simp only [mcp_server.search_similar_compounds_by_cid, if_neg hcid, if_neg h404]
        exact Or.inl (pyStartsWith_append_left "Error searching similar compounds: " m
          "Error" (by decide))
      | resp sstatus props =>
        simp only [mcp_server.search_similar_compounds_by_cid, if_neg hcid, if_neg h404]
        simp only [similar_request_fails, if_neg h404] at hfail
        by_cases hs404 : sstatus = 404
        · rw [if_pos hs404]
          refine Or.inr (Or.inr ?_)
          exact pyStartsWith_append_left _ (mcp_server.ratStr threshold) "No similar compounds found"
            (pyStartsWith_append_left _ " at threshold " _
              (pyStartsWith_append_left "No similar compounds found for CID " cid _
                (by decide)))
        · rw [if_neg hs404] at hfail ⊢
          by_cases h2xx : 200 ≤ sstatus ∧ sstatus < 300
          · have hn : ¬¬(200 ≤ sstatus ∧ sstatus < 300) := not_not_intro h2xx
            rw [if_neg hn] at hfail ⊢
            cases props with
            | none =>
              refine Or.inr (Or.inr ?_)
              exact pyStartsWith_append_left _ (mcp_server.ratStr threshold)
                "No similar compounds found"
                (pyStartsWith_append_left _ " at threshold " _
                  (pyStartsWith_append_left "No similar compounds found for CID " cid _
                    (by decide)))
            | some cs =>
              cases cs with
              | nil =>
                refine Or.inr (Or.inr ?_)
                exact pyStartsWith_append_left _ (mcp_server.ratStr threshold)
                  "No similar compounds found"
                  (pyStartsWith_append_left _ " at threshold " _
                    (pyStartsWith_append_left "No similar compounds found for CID " cid _
                      (by decide)))
              | cons c rest => simp at hfail
          · rw [if_pos h2xx]
            exact Or.inl (pyStartsWith_append_left "Error searching similar compounds: "
              (httpStatusMessage sstatus) "Error" (by decide))

theorem errors_signaled_in_band_witness :
    pyStartsWith (mcp_server.search_similar_compounds_by_cid "999999999" 0 10
      (.resp 200 (some "Aspirin")) (.resp 500 none)) "Error" = true
    ∨ pyStartsWith (mcp_server.search_similar_compounds_by_cid "999999999" 0 10
      (.resp 200 (some "Aspirin")) (.resp 500 none)) "No compound found" = true
    ∨ pyStartsWith (mcp_server.search_similar_compounds_by_cid "999999999" 0 10
      (.resp 200 (some "Aspirin")) (.resp 500 none)) "No similar compounds found" = true :=
  errors_signaled_in_band "999999999" 0 10 (.resp 200 (some "Aspirin")) (.resp 500 none)
    (by decide) (by decide)

/-- C9: the tool handlers are deterministic formatters: two calls with
identical arguments that observe identical upstream responses produce
identical output.  In this embedding the handlers take the upstream
observations as their only non-argument inputs — there is no hidden state — so
the claim is the congruence below. -/
theorem deterministic_formatting :
    (∀ (cid property_list : String) (main main' : PropsOutcome)
       (titleResult titleResult' : Option String),
       main = main' → titleResult = titleResult' →
       mcp_server.get_compound_properties cid property_list main titleResult
         = mcp_server.get_compound_properties cid property_list main' titleResult')
    ∧ (∀ (cid : String) (threshold : Rat) (max_results : Int)
       (nameReq nameReq' : TitleOutcome) (simReq simReq' : SimilarOutcome),
       nameReq = nameReq' → simReq = simReq' →
       mcp_server.search_similar_compounds_by_cid cid threshold max_results nameReq simReq
         = mcp_server.search_similar_compounds_by_cid cid threshold max_results
             nameReq' simReq') := by
  constructor
  · intro cid pl m m' t t' hm ht
    subst hm
    subst ht
    rfl
  · intro cid th mr n n' s s' hn hs
    subst hn
    subst hs
    rfl

theorem deterministic_formatting_witness :
    mcp_server.get_compound_properties "11" "basic" (.resp 200 (some [[("TPSA", "63.6")]]))
      (some "X") = mcp_server.get_compound_properties "11" "basic"
      (.resp 200 (some [[("TPSA", "63.6")]])) (some "X")
    ∧ mcp_server.search_similar_compounds_by_cid "11" 0 5 (.resp 200 (some "X"))
        (.resp 200 (some []))
      = mcp_server.search_similar_compounds_by_cid "11" 0 5 (.resp 200 (some "X"))
        (.resp 200 (some [])) :=
  ⟨deterministic_formatting.1 "11" "basic" (.resp 200 (some [[("TPSA", "63.6")]]))
      (.resp 200 (some [[("TPSA", "63.6")]])) (some "X") (some "X") rfl rfl,
   deterministic_formatting.2 "11" 0 5 (.resp 200 (some "X")) (.resp 200 (some "X"))
      (.resp 200 (some [])) (.resp 200 (some [])) rfl rfl⟩

/-! ## Counting the numbered entries of the synonym listings -/

theorem countP_splitLines_synonym_lines (syns : List String) :
    ∀ i, (∀ s ∈ syns, '\n' ∉ s.data) →
      ((splitLinesAux (mcp_server.format_synonym_lines i syns).data []).countP
        isNumberedLine) = syns.length := by
  induction syns with
  | nil =>
    intro i _
    simp only [mcp_server.format_synonym_lines]
    decide
  | cons s rest ih =>
    intro i hnl
    have hs : '\n' ∉ s.data := hnl s (List.mem_cons_self s rest)
    have hrest : ∀ x ∈ rest, '\n' ∉ x.data := fun x hx => hnl x (List.mem_cons_of_mem s hx)
    have hdot : (". " : String).data = ['.', ' '] := by decide
    have hnlc : ("\n" : String).data = ['\n'] := by decide
    have hdata : (mcp_server.format_synonym_lines i (s :: rest)).data
        = ((natStr (i + 1)).data ++ '.' :: ' ' :: s.data)
          ++ '\n' :: (mcp_server.format_synonym_lines (i + 1) rest).data := by
      simp [mcp_server.format_synonym_lines, String.data_append, hdot, hnlc,
        List.append_assoc]
    have hseg : '\n' ∉ (natStr (i + 1)).data ++ '.' :: ' ' :: s.data := by
      intro hmem
      rcases List.mem_append.1 hmem with h | h
      · exact newline_not_mem_natStr (i + 1) h
      · rcases h with _ | ⟨_, h⟩
        · rcases h with _ | ⟨_, h⟩
          · exact hs h
    rw [hdata, splitLinesAux_append_no_newline _ hseg, splitLinesAux_newline_cons]
    simp only [List.append_nil, List.reverse_reverse, List.countP_cons,
      isNumberedLine_entry, if_pos rfl]
    rw [ih (i + 1) hrest]
    simp [List.length_cons]

theorem numberedEntryCount_synonyms_format (name cid : String) (syns : List String)
    (hname : '\n' ∉ name.data) (hcid : '\n' ∉ cid.data)
    (hsyns : ∀ s ∈ syns, '\n' ∉ s.data) :
    numberedEntryCount ("\nSynonyms for " ++ name ++ " (CID " ++ cid ++ "):\n"
      ++ mcp_server.format_synonym_lines 0 syns) = syns.length := by
  have d1 : ("\nSynonyms for " : String).data
      = '\n' :: ("Synonyms for " : String).data := by decide
  have d2 : ("):\n" : String).data = [')', ':', '\n'] := by decide
  have hdata : ("\nSynonyms for " ++ name ++ " (CID " ++ cid ++ "):\n"
      ++ mcp_server.format_synonym_lines 0 syns).data
      = '\n' :: ((("Synonyms for " : String).data ++ name.data
          ++ (" (CID " : String).data ++ cid.data ++ [')', ':'])
        ++ '\n' :: (mcp_server.format_synonym_lines 0 syns).data) := by
    simp [String.data_append, d1, d2, List.append_assoc]
  have hhb : '\n' ∉ ("Synonyms for " : String).data ++ name.data
      ++ (" (CID " : String).data ++ cid.data ++ [')', ':'] := by
    intro hmem
    simp only [List.append_assoc, List.mem_append] at hmem
    rcases hmem with h | h | h | h | h
    · exact absurd h (by decide)
    · exact hname h
    · exact absurd h (by decide)
    · exact hcid h
    · exact absurd h (by decide)
  have hhead : ("Synonyms for " : String).data ++ name.data
      ++ (" (CID " : String).data ++ cid.data ++ [')', ':']
      = 'S' :: (("ynonyms for " : String).data ++ name.data
          ++ (" (CID " : String).data ++ cid.data ++ [')', ':']) := by
    have d3 : ("Synonyms for " : String).data
        = 'S' :: ("ynonyms for " : String).data := by decide
    simp [d3, List.append_assoc]
  unfold numberedEntryCount
  rw [hdata, splitLinesAux_newline_cons, splitLinesAux_append_no_newline _ hhb,
    splitLinesAux_newline_cons]
  simp only [List.append_nil, List.reverse_reverse, List.reverse_nil, List.countP_cons,
    isNumberedLine_nil, hhead, isNumberedLine_not_digit_head 'S' _ (by decide)]
  simp only [if_neg (by simp : ¬(false = true))]
  exact countP_splitLines_synonym_lines syns 0 hsyns

theorem pyEndsWith_showing (r0 x y : String) :
    pyEndsWith (r0 ++ "\nShowing " ++ x ++ " of " ++ y ++ " synonyms.")
      ("Showing " ++ x ++ " of " ++ y ++ " synonyms.") = true := by
  have d1 : ("\nShowing " : String).data = '\n' :: ("Showing " : String).data := by decide
  have key : (r0 ++ "\nShowing " ++ x ++ " of " ++ y ++ " synonyms.").data
      = r0.data ++ '\n' :: ("Showing " ++ x ++ " of " ++ y ++ " synonyms.").data := by
    simp [String.data_append, d1, List.append_assoc]
  unfold pyEndsWith
  rw [key]
  apply listEndsWith_append
  rw [List.reverse_cons]
  exact listStartsWith_append_self _ _

/-- C6 counterexample: `get_compound_synonyms` (in
`mcp_server/compounds/properties.py`) called for CID 2244 with
`max_results = 3` returns the hard-coded mock with 10 numbered entries — not
at most 3 — and contains no "Showing" note; and on a non-mock CID where
truncation to 3 of 5 synonyms does occur, no "Showing 3 of 5" note is
appended either. -/
theorem synonym_limit_cex :
    numberedEntryCount (mcp_server.get_compound_synonyms "2244" 3
      (.resp 200 (some "Aspirin")) (.resp 200 (some [["a", "b", "c", "d", "e"]]))) = 10
    ∧ strContains (mcp_server.get_compound_synonyms "2244" 3
      (.resp 200 (some "Aspirin")) (.resp 200 (some [["a", "b", "c", "d", "e"]])))
      "Showing" = false
    ∧ numberedEntryCount (mcp_server.get_compound_synonyms "77" 3
      (.resp 200 (some "X")) (.resp 200 (some [["s1", "s2", "s3", "s4", "s5"]]))) = 3
    ∧ strContains (mcp_server.get_compound_synonyms "77" 3
      (.resp 200 (some "X")) (.resp 200 (some [["s1", "s2", "s3", "s4", "s5"]])))
      "Showing" = false := by
  decide

/-- C6 amended: for CID 2244 the handler in
`mcp_server/compounds/properties.py` ignores `max_results` and returns the
fixed 10-entry mock; for any other CID a successful lookup with
`max_results = 3` yields exactly `min 3 N` numbered entries (so at most 3)
and never a "Showing" note; the sibling handler in
`src/pubchem_mcp/__init__.py` is the one that appends a trailing
"Showing `max` of `N` synonyms." note whenever truncation occurred. -/
theorem synonyms_truncation_behavior :
    (∀ (max_results : Int) (check : TitleOutcome) (syn : SynOutcome),
       mcp_server.get_compound_synonyms "2244" max_results check syn
         = mcp_server.aspirin_synonyms_mock)
    ∧ (∀ (cid : String) (cstatus : Nat) (ctitle : Option String) (sstatus : Nat)
       (syns : List String) (more : List (List String)),
       cid ≠ "2244" → cstatus ≠ 404 → 200 ≤ sstatus → sstatus < 300 → syns ≠ [] →
       '\n' ∉ cid.data → '\n' ∉ (mcp_server.extract_title cstatus ctitle).data →
       (∀ s ∈ syns, '\n' ∉ s.data) →
       numberedEntryCount (mcp_server.get_compound_synonyms cid 3
         (.resp cstatus ctitle) (.resp sstatus (some (syns :: more))))
         = min 3 syns.length)
    ∧ (∀ (cid : String) (max_synonyms : Int) (status : Nat) (syns : List String)
       (more : List (List String)),
       200 ≤ status → status < 300 → syns ≠ [] →
       max_synonyms < (syns.length : Int) →
       pyEndsWith (pubchem_mcp.get_compound_synonyms cid max_synonyms
         (.resp status (some (syns :: more))))
         ("Showing " ++ intStr max_synonyms ++ " of " ++ natStr syns.length
           ++ " synonyms.") = true) := by
  refine ⟨?_, ?_, ?_⟩
  · intro max_results check syn
    simp [mcp_server.get_compound_synonyms]
  · intro cid cstatus ctitle sstatus syns more hcid hc404 h2a h2b hne hcidnl htitlenl hsynnl
    have hs404 : sstatus ≠ 404 := by omega
    have h2xx : ¬¬(200 ≤ sstatus ∧ sstatus < 300) := not_not_intro ⟨h2a, h2b⟩
    simp only [mcp_server.get_compound_synonyms, if_neg hcid, if_neg hc404,
      if_neg hs404, if_neg h2xx, if_neg hne]
    have hlim : mcp_server.limit_synonyms 3 syns = syns.take 3 := by
      simp [mcp_server.limit_synonyms, pyTake]
    rw [hlim]
    have hmem : ∀ s ∈ syns.take 3, '\n' ∉ s.data :=
      fun s hs => hsynnl s (List.mem_of_mem_take hs)
    rw [numberedEntryCount_synonyms_format _ _ _ htitlenl hcidnl hmem]
    exact List.length_take 3 syns
  · intro cid max_synonyms status syns more h2a h2b hne hlt
    have hs404 : status ≠ 404 := by omega
    have h2xx : ¬¬(200 ≤ status ∧ status < 300) := not_not_intro ⟨h2a, h2b⟩
    simp only [pubchem_mcp.get_compound_synonyms, if_neg hs404, if_neg h2xx,
      if_neg hne, if_pos hlt]
    exact pyEndsWith_showing _ _ _

theorem synonyms_truncation_behavior_witness :
    mcp_server.get_compound_synonyms "2244" 3 (.exc "net") (.exc "net")
      = mcp_server.aspirin_synonyms_mock
    ∧ numberedEntryCount (mcp_server.get_compound_synonyms "77" 3
        (.resp 200 (some "X")) (.resp 200 (some [["a", "b", "c", "d"]])))
      = min 3 (["a", "b", "c", "d"] : List String).length
    ∧ pyEndsWith (pubchem_mcp.get_compound_synonyms "5" 2
        (.resp 200 (some [["a", "b", "c"]])))
        ("Showing " ++ intStr 2 ++ " of " ++ natStr (["a", "b", "c"] : List String).length
          ++ " synonyms.") = true :=
  ⟨synonyms_truncation_behavior.1 3 (.exc "net") (.exc "net"),
   synonyms_truncation_behavior.2.1 "77" 200 (some "X") 200 ["a", "b", "c", "d"] []
     (by decide) (by decide) (by decide) (by decide) (by decide) (by decide)
     (by decide) (by decide),
   synonyms_truncation_behavior.2.2 "5" 2 200 ["a", "b", "c"] []
     (by decide) (by decide) (by decide) (by decide)⟩

/-- C10: with a non-positive `max_results` the `mcp_server` synonyms handler
applies no truncation: the guard `if max_results > 0` skips the slice, every
synonym is listed, and the entry list is non-empty whenever the upstream
synonym list is. -/
theorem nonpositive_limit_returns_all :
    (∀ (max_results : Int) (syns : List String), max_results ≤ 0 →
       mcp_server.limit_synonyms max_results syns = syns)
    ∧ (∀ (cid : String) (cstatus : Nat) (ctitle : Option String) (sstatus : Nat)
       (syns : List String) (more : List (List String)) (max_results : Int),
       max_results ≤ 0 → cid ≠ "2244" → cstatus ≠ 404 →
       200 ≤ sstatus → sstatus < 300 → syns ≠ [] →
       '\n' ∉ cid.data → '\n' ∉ (mcp_server.extract_title cstatus ctitle).data →
       (∀ s ∈ syns, '\n' ∉ s.data) →
       numberedEntryCount (mcp_server.get_compound_synonyms cid max_results
         (.resp cstatus ctitle) (.resp sstatus (some (syns :: more)))) = syns.length
       ∧ 0 < syns.length) := by
  have hlim : ∀ (max_results : Int) (syns : List String), max_results ≤ 0 →
      mcp_server.limit_synonyms max_results syns = syns := by
    intro max_results syns hle
    have : ¬(max_results > 0) := by omega
    simp [mcp_server.limit_synonyms, this]
  refine ⟨hlim, ?_⟩
  intro cid cstatus ctitle sstatus syns more max_results hle hcid hc404 h2a h2b hne
    hcidnl htitlenl hsynnl
  have hs404 : sstatus ≠ 404 := by omega
  have h2xx : ¬¬(200 ≤ sstatus ∧ sstatus < 300) := not_not_intro ⟨h2a, h2b⟩
  refine ⟨?_, List.length_pos.2 hne⟩
  simp only [mcp_server.get_compound_synonyms, if_neg hcid, if_neg hc404,
    if_neg hs404, if_neg h2xx, if_neg hne]
  rw [hlim max_results syns hle]
  exact numberedEntryCount_synonyms_format _ _ _ htitlenl hcidnl hsynnl

theorem nonpositive_limit_returns_all_witness :
    mcp_server.limit_synonyms (-2) ["a", "b", "c"] = ["a", "b", "c"]
    ∧ (numberedEntryCount (mcp_server.get_compound_synonyms "77" (-2)
        (.resp 200 (some "X")) (.resp 200 (some [["a", "b", "c"]])))
        = (["a", "b", "c"] : List String).length
       ∧ 0 < (["a", "b", "c"] : List String).length) :=
  ⟨nonpositive_limit_returns_all.1 (-2) ["a", "b", "c"] (by decide),
   nonpositive_limit_returns_all.2 "77" 200 (some "X") 200 ["a", "b", "c"] [] (-2)
     (by decide) (by decide) (by decide) (by decide) (by decide) (by decide)
     (by decide) (by decide) (by decide)⟩
